import Mathlib

/-!
Verification of the census-commuting analysis pipeline
(`week3assignment.py`): a linear pandas/geopandas script that loads two
American Community Survey extracts, derives a percent-transit-users
column, ranks and summarizes it, joins tract geometry, and filters out
undefined rows for mapping.

The shallow embedding below mirrors the script's dataframe operations:
machine floats produced by integer-column division are modelled by
`PFloat` (NaN / positive infinity / a rational value, since exact
rational arithmetic is the reference semantics up to floating-point
rounding, which no claim depends on); tables are lists of typed rows;
pandas' NaN-skipping statistics, its `rank(ascending=0)` (default
method: average of occupied ordinal positions, NaN kept as NaN), its
`set_index`/`sort_index` (NaN placed last), its inner `merge`, and its
boolean-mask filtering are each given as executable definitions.
-/

/-- The value space of the script's derived float column: pandas division
of two non-negative integer columns yields NaN for 0/0, +infinity for
x/0 with x > 0, and an ordinary (here: exact rational) value otherwise. -/
inductive PFloat where
  | nan : PFloat
  | inf : PFloat
  | val : ℚ → PFloat
deriving DecidableEq

/-- True exactly on the NaN element (pandas' missing-value marker). -/
def PFloat.isNaN : PFloat → Bool
  | .nan => true
  | _ => false

/-- True exactly on positive infinity. -/
def PFloat.isInf : PFloat → Bool
  | .inf => true
  | _ => false

/-- IEEE-style strict greater-than used by ranking: any comparison
involving NaN is false; +infinity is above every finite value. -/
def PFloat.gtB : PFloat → PFloat → Bool
  | .nan, _ => false
  | _, .nan => false
  | .inf, .inf => false
  | .inf, .val _ => true
  | .val _, .inf => false
  | .val a, .val b => decide (b < a)

/-- The finite value carried by a `PFloat`, when there is one. -/
def PFloat.toVal : PFloat → Option ℚ
  | .val q => some q
  | _ => none

/-- Line 174/181: `(B08301_010E / B08301_001E) * 100` on integer pandas
columns. 0/0 is NaN, positive/0 is +infinity, otherwise the exact ratio
times 100. -/
def transit_pct (transit total : ℕ) : PFloat :=
  if total = 0 then
    (if transit = 0 then .nan else .inf)
  else
    .val (100 * ((transit : ℚ) / (total : ℚ)))

/-- A row of the reduced survey table `ACS_22B` / `ACS_10B` right after
the projection to `columns_to_keep` (lines 134-149): the tract
identifier `GEO_ID` (parsed as a string, leading zeros intact), the
transit-user count `B08301_010E` and the total-commuter count
`B08301_001E` (both `int64` columns). -/
structure ACSRow where
  geo_id : String
  transit : ℕ
  total : ℕ
deriving DecidableEq

/-- A row of the reduced table after adding `transit_pct` (lines
174/181) and renaming the columns to `FIPS`, `Total Transit Users
(excluding taxicabs)`, `Total Commuters`, `Percent Transit Users`
(lines 206-221). -/
structure ACSRowB where
  fips : String
  transitUsers : ℕ
  totalCommuters : ℕ
  pct : PFloat
deriving DecidableEq

/-- Adding the derived column and renaming: the counts and identifier
pass through unchanged. -/
def addPct (r : ACSRow) : ACSRowB :=
  ⟨r.geo_id, r.transit, r.total, transit_pct r.transit r.total⟩

/-- Pandas `Series.rank(ascending=0)` (lines 248/258) with its defaults:
method is average (a value's rank is the mean of the descending ordinal
positions it would occupy), na_option keeps NaN as NaN. For a non-NaN
value x in column col the rank is
  (number of entries strictly above x) + ((number of entries equal to x) + 1) / 2. -/
def rankVal (col : List PFloat) (x : PFloat) : ℚ :=
  (col.countP (fun y => y.gtB x) : ℚ) +
    ((col.countP (fun y => decide (y = x)) : ℚ) + 1) / 2

/-- The pandas rank of one entry: NaN entries keep a NaN rank
(na_option keep), any other entry gets its average rank. -/
def rank1 (col : List PFloat) (x : PFloat) : Option ℚ :=
  if x.isNaN then none
  else some (rankVal col x)

/-- A row of `ACS_22B` / `ACS_10B` after `set_index('Rank')` (lines
249/259): the rank becomes the index (NaN rank for NaN percentage), the
remaining columns stay. -/
structure RankedRow where
  rank : Option ℚ
  row : ACSRowB
deriving DecidableEq

/-- `df['Rank'] = df['Percent Transit Users'].rank(ascending = 0)`
followed by `set_index('Rank')`: each row is paired with the rank of its
percentage value within the whole column. -/
def rankTable (t : List ACSRowB) : List RankedRow :=
  t.map (fun r => ⟨rank1 (t.map ACSRowB.pct) r.pct, r⟩)

/-- Sort key of `sort_index()` on the Rank index: NaN indexes are placed
after every numeric index (pandas default na_position is last), so NaN
maps to the top element. -/
def rkey (r : RankedRow) : WithTop ℚ :=
  match r.rank with
  | some x => (x : WithTop ℚ)
  | none => ⊤

/-- Row comparison used by `sort_index()`: ascending by rank, NaN last. -/
def rowLE (a b : RankedRow) : Prop := rkey a ≤ rkey b

instance : DecidableRel rowLE := fun a b =>
  inferInstanceAs (Decidable (rkey a ≤ rkey b))

instance : IsTotal RankedRow rowLE := ⟨fun a b => le_total (rkey a) (rkey b)⟩

instance : IsTrans RankedRow rowLE := ⟨fun _ _ _ hab hbc => le_trans hab hbc⟩

/-- `df = df.sort_index()` (lines 250/260): reorder rows by ascending
rank, NaN-ranked rows last. -/
def sortByRank (t : List RankedRow) : List RankedRow :=
  t.insertionSort rowLE

/-- Lines 248-251/258-261 as one step: rank the percentage column, index
by it, sort ascending. -/
def rankAndSort (t : List ACSRowB) : List RankedRow :=
  sortByRank (rankTable t)

/-- The finite values of a column, in row order (the entries pandas'
NaN-skipping statistics actually aggregate). -/
def definedVals (xs : List PFloat) : List ℚ :=
  xs.filterMap PFloat.toVal

/-- Whether the column contains +infinity (cannot happen for survey rows
satisfying transit <= total, but kept for faithfulness of the mean). -/
def hasInf (xs : List PFloat) : Bool :=
  xs.any PFloat.isInf

/-- Pandas `Series.count()` and the count line of `.describe()`: the
number of non-NaN entries. -/
def pandasCount (xs : List PFloat) : ℕ :=
  xs.countP (fun x => !x.isNaN)

/-- Pandas `Series.mean()` (lines 272/279, default skipna): NaN entries
are excluded; the mean of no values is NaN; a +infinity summand makes
the sum +infinity. -/
def pandasMean (xs : List PFloat) : PFloat :=
  if hasInf xs then .inf
  else if definedVals xs = [] then .nan
  else .val ((definedVals xs).sum / ((definedVals xs).length : ℚ))

/-- The non-NaN values sorted ascending, as used by median and
quantiles. -/
def sortedVals (xs : List PFloat) : List ℚ :=
  (definedVals xs).insertionSort (· ≤ ·)

/-- Pandas `Series.median()` (lines 297/304, default skipna): middle of
the sorted non-NaN values, averaging the two middles on even length. -/
def pandasMedian (xs : List PFloat) : PFloat :=
  let vs := sortedVals xs
  let n := vs.length
  if n = 0 then .nan
  else if n % 2 = 1 then .val (vs.getD (n / 2) 0)
  else .val ((vs.getD (n / 2 - 1) 0 + vs.getD (n / 2) 0) / 2)

/-- Pandas `Series.min()` as reported by `.describe()`: smallest non-NaN
value, NaN on an all-NaN column. -/
def pandasMin (xs : List PFloat) : PFloat :=
  match sortedVals xs with
  | [] => .nan
  | v :: _ => .val v

/-- Pandas `Series.max()` as reported by `.describe()`: largest non-NaN
value, NaN on an all-NaN column. -/
def pandasMax (xs : List PFloat) : PFloat :=
  let vs := sortedVals xs
  if vs.length = 0 then .nan else .val (vs.getD (vs.length - 1) 0)

/-- The square of the std line of `.describe()`: the sample variance
(denominator n - 1) of the non-NaN values; NaN when fewer than two. The
std itself is its square root, which adds nothing about NaN handling. -/
def pandasVarSample (xs : List PFloat) : PFloat :=
  let vs := definedVals xs
  let n := vs.length
  if n ≤ 1 then .nan
  else
    let m : ℚ := vs.sum / (n : ℚ)
    .val ((vs.map (fun v => (v - m) ^ 2)).sum / ((n : ℚ) - 1))

/-- The quantile lines of `.describe()` (25%, 50%, 75%): pandas' default
linear interpolation at position (n-1)p of the ascending sorted non-NaN
values; NaN on an all-NaN column. -/
def pandasQuantile (xs : List PFloat) (p : ℚ) : PFloat :=
  let vs := sortedVals xs
  let n := vs.length
  if n = 0 then .nan
  else
    let h : ℚ := ((n : ℚ) - 1) * p
    let i : ℕ := (⌊h⌋).toNat
    let lo := vs.getD i 0
    let hi := vs.getD (min (i + 1) (n - 1)) 0
    .val (lo + (h - (i : ℚ)) * (hi - lo))

/-- Replacing NaN by the value zero: what the statistics would see if
undefined rows were zero-filled instead of excluded (the behaviour the
spec rules out). -/
def nanToZero : PFloat → PFloat
  | .nan => .val 0
  | x => x

/-- A row of the geojson file after the subset to CT20 and geometry
(lines 351/353): the short tract code and an (opaque) polygon. -/
structure GeoRow where
  ct20 : String
  geometry : String
deriving DecidableEq

/-- A geometry row after `tracts['FIPS'] = '06' + '037' + tracts['CT20']`
(line 352): the full identifier column is added. -/
structure TractRow where
  ct20 : String
  geometry : String
  fips : String
deriving DecidableEq

/-- Line 352: synthesize the full FIPS identifier from the constant
state code "06", the constant county code "037" and the short code. -/
def addFips (g : GeoRow) : TractRow :=
  ⟨g.ct20, g.geometry, "06" ++ "037" ++ g.ct20⟩

/-- Lines 351-352: build the `tracts` table from the geojson rows. -/
def mkTracts (geo : List GeoRow) : List TractRow :=
  geo.map addFips

/-- Lines 353-354: `tracts2` is subset the same way, but its FIPS column
is computed from `tracts['CT20']` (the other frame's column, aligned by
row position) — modelled by zipping the two equal-length frames. -/
def mkTracts2 (geo : List GeoRow) : List TractRow :=
  (geo.zip geo).map (fun p => ⟨p.1.ct20, p.1.geometry, "06" ++ "037" ++ p.2.ct20⟩)

/-- A row of `tracts_transit22` / `tracts_transit10`: geometry columns
plus the survey columns, sharing the single FIPS join column. The Rank
index of the right frame is discarded by pandas merge. -/
structure JoinedRow where
  ct20 : String
  geometry : String
  fips : String
  transitUsers : ℕ
  totalCommuters : ℕ
  pct : PFloat
deriving DecidableEq

/-- Lines 364/372: `tracts.merge(ACS_22B, on="FIPS")` — pandas inner
equi-join: every pair of rows with equal FIPS keys, in left-row-major
order. -/
def mergeOnFips (ts : List TractRow) (acs : List ACSRowB) : List JoinedRow :=
  ts.flatMap (fun t =>
    (acs.filter (fun a => a.fips == t.fips)).map (fun a =>
      ⟨t.ct20, t.geometry, t.fips, a.transitUsers, a.totalCommuters, a.pct⟩))

/-- Lines 434-435: `df[df['Percent Transit Users'].notnull()]` — keep
the rows whose percentage is not NaN (boolean-mask filtering). -/
def notnullFilter (t : List JoinedRow) : List JoinedRow :=
  t.filter (fun r => !r.pct.isNaN)

/-- One `pd.read_csv` call as it matters here: which file it reads and
whether it forces the GEO_ID column to dtype str (preserving leading
zeros). -/
structure ReadCsvCall where
  path : String
  geoIdAsString : Bool
deriving DecidableEq

/-- Lines 72-78: the (re-)read that produces the final `ACS_22`. -/
def acs22Read : ReadCsvCall :=
  ⟨"Census_Data/ACS_22.csv", true⟩

/-- Lines 85-91: the (re-)read that produces the final `ACS_10`. The
path in the source is the 2022 file, not the 2010 one. -/
def acs10Read : ReadCsvCall :=
  ⟨"Census_Data/ACS_22.csv", true⟩

/-- The 2010 file that the script's own narrative (and its line-27 first
read) says the 2010 table comes from. -/
def acs10IntendedPath : String := "Census_Data/ACS_10.csv"

/-- Line 340: the geojson read producing `tracts`. -/
def tractsReadPath : String := "Census_Data/Census_Tracts_2020-Copy1.geojson"

/-- Line 341: the geojson read producing `tracts2`. -/
def tracts2ReadPath : String := "Census_Data/Census_Tracts_2020-Copy1.geojson"

/-- The full 2022 branch of the script, as a function of the parsed file
contents. `fs` maps a csv path to its parsed rows (read with GEO_ID as
str and already projected to the three retained columns, the only ones
any later step touches): reading is deterministic, so equal paths give
equal tables. -/
def acs22Table (fs : String → List ACSRow) : List ACSRow :=
  fs acs22Read.path

/-- The 2010 read (line 85-91), which names the 2022 file. -/
def acs10Table (fs : String → List ACSRow) : List ACSRow :=
  fs acs10Read.path

/-- `ACS_22B` after lines 134-251: project, derive the percentage,
rename, rank and sort. -/
def acs22B (fs : String → List ACSRow) : List RankedRow :=
  rankAndSort ((acs22Table fs).map addPct)

/-- `ACS_10B` after lines 145-261: the same steps on the 2010 table. -/
def acs10B (fs : String → List ACSRow) : List RankedRow :=
  rankAndSort ((acs10Table fs).map addPct)

/-- The `Percent Transit Users` column of `ACS_22B`. -/
def pctCol22 (fs : String → List ACSRow) : List PFloat :=
  (acs22B fs).map (fun r => r.row.pct)

/-- The `Percent Transit Users` column of `ACS_10B`. -/
def pctCol10 (fs : String → List ACSRow) : List PFloat :=
  (acs10B fs).map (fun r => r.row.pct)

/-- Line 364: `tracts_transit22`, with `gs` the deterministic geojson
reader. -/
def tractsTransit22 (fs : String → List ACSRow) (gs : String → List GeoRow) :
    List JoinedRow :=
  mergeOnFips (mkTracts (gs tractsReadPath)) ((acs22B fs).map RankedRow.row)

/-- Line 372: `tracts_transit10`. -/
def tractsTransit10 (fs : String → List ACSRow) (gs : String → List GeoRow) :
    List JoinedRow :=
  mergeOnFips (mkTracts2 (gs tracts2ReadPath)) ((acs10B fs).map RankedRow.row)

/-- Line 434: `tracts_transit22b`. -/
def tractsTransit22b (fs : String → List ACSRow) (gs : String → List GeoRow) :
    List JoinedRow :=
  notnullFilter (tractsTransit22 fs gs)

/-- Line 435: `tracts_transit10b`. -/
def tractsTransit10b (fs : String → List ACSRow) (gs : String → List GeoRow) :
    List JoinedRow :=
  notnullFilter (tractsTransit10 fs gs)

/-- A raw parsed csv before projection: header names and string cells,
one inner list per data row. -/
structure RawTable where
  header : List String
  rows : List (List String)
deriving DecidableEq

/-- The errors relevant to column selection: the KeyError pandas
actually raises on missing columns (carrying the missing names), and the
MalformedInputError the spec names. Modelled from the spec: no
MalformedInputError exists anywhere in the source. -/
inductive PandasError where
  | keyError : List String → PandasError
  | malformedInputError : PandasError
deriving DecidableEq

/-- The cell of a row under a given header column. -/
def cell (hdr row : List String) (c : String) : String :=
  row.getD (hdr.indexOf c) ""

/-- Lines 138/149: `ACS_22[columns_to_keep]` — column projection.
Pandas raises KeyError naming the requested columns that are not in the
frame; otherwise it returns the projected frame, coercing nothing. -/
def selectColumns (cols : List String) (t : RawTable) : Except PandasError RawTable :=
  let missing := cols.filter (fun c => !t.header.contains c)
  if missing.isEmpty then
    .ok ⟨cols, t.rows.map (fun r => cols.map (cell t.header r))⟩
  else
    .error (.keyError missing)

/-- Lines 134-137: the retained columns for 2022. -/
def columns_to_keep : List String := ["GEO_ID", "B08301_010E", "B08301_001E"]

/-- Lines 145-148: the retained columns for 2010 (an identical list). -/
def columns_to_keep2 : List String := ["GEO_ID", "B08301_010E", "B08301_001E"]

/-- The rank a value would get among the distinct defined values of the
column: one more than the number of distinct values strictly above it.
With pairwise-distinct defined values this coincides with the pandas
average rank. -/
def rkF (s : Finset ℚ) (a : ℚ) : ℕ :=
  (s.filter (fun b => a < b)).card + 1

/-- A tiny concrete survey table: one ordinary tract and one
zero-commuter tract (the spec's section-8 example). -/
def sampleRows : List ACSRow :=
  [⟨"06037101110", 50, 1000⟩, ⟨"06037101111", 0, 0⟩]

/-- The same table after deriving the percentage and renaming. -/
def sampleB : List ACSRowB :=
  sampleRows.map addPct

/-- A concrete percentage column with distinct defined values and a NaN
row. -/
def sampleCol : List PFloat :=
  [.val 6, .nan, .val 2, .val 4]

/-- A reduced table whose two rows have the same percentage value: the
tie case for ranking. -/
def tieTable : List ACSRowB :=
  [⟨"06037100001", 1, 20, .val 5⟩, ⟨"06037100002", 2, 40, .val 5⟩]

/-- A concrete joined table with one defined and one NaN percentage. -/
def sampleJoined : List JoinedRow :=
  [⟨"101110", "poly1", "06037101110", 50, 1000, .val 5⟩,
   ⟨"101111", "poly2", "06037101111", 0, 0, .nan⟩]

/-- A raw survey frame missing both commuter-count columns. -/
def malformedAcs : RawTable :=
  ⟨["GEO_ID", "NAME"], [["0600001", "tract one"]]⟩

/-- A concrete geometry table. -/
def sampleGeo : List GeoRow :=
  [⟨"101110", "poly1"⟩, ⟨"999999", "poly2"⟩]

/-- A one-row geometry table whose synthesized key matches the first
row of the tie table. -/
def sampleGeo2 : List GeoRow :=
  [⟨"100001", "polyA"⟩]

/-- The joined row produced by merging that geometry with the tie
table. -/
def sampleJoinedRow : JoinedRow :=
  ⟨"100001", "polyA", "06037100001", 1, 20, .val 5⟩

/-! ### Claim C1: zero total-commuter count and NaN percentage -/

/-- C1: in the reduced survey table (any table of commuting records
satisfying the data-model invariant transit-user count <= total-commuter
count), the derived percentage is NaN exactly on the rows whose
total-commuter count is 0, and a zero denominator never yields the
finite value 0 (nor any finite value), nor an exception (`transit_pct`
is a total function). -/
theorem c1_nan_iff_zero_total (t : List ACSRow)
    (hinv : ∀ r ∈ t, r.transit ≤ r.total) :
    ∀ r ∈ t.map addPct,
      (r.pct = .nan ↔ r.totalCommuters = 0) ∧
      (r.totalCommuters = 0 → ∀ q : ℚ, r.pct ≠ .val q) := by
  intro r hr
  obtain ⟨s, hs, rfl⟩ := List.mem_map.mp hr
  have h := hinv s hs
  by_cases hT : s.total = 0
  · have ht : s.transit = 0 := Nat.le_antisymm (hT ▸ h) (Nat.zero_le _)
    simp [addPct, transit_pct, hT, ht]
  · simp [addPct, transit_pct, hT]

/-- Witness for C1 at the spec's section-8 zero-commuter example row. -/
theorem c1_witness :
    ((addPct ⟨"06037101111", 0, 0⟩).pct = .nan ↔
      (addPct ⟨"06037101111", 0, 0⟩).totalCommuters = 0) ∧
    ((addPct ⟨"06037101111", 0, 0⟩).totalCommuters = 0 →
      ∀ q : ℚ, (addPct ⟨"06037101111", 0, 0⟩).pct ≠ .val q) :=
  c1_nan_iff_zero_total sampleRows (by decide) (addPct ⟨"06037101111", 0, 0⟩)
    (by decide)

/-! ### Claim C6: defined percentages are the ratio and lie in [0, 100] -/

/-- C6: for any commuting record with non-negative counts, transit-user
count <= total-commuter count and a non-zero total (i.e. a defined
percentage), the derived percentage is exactly 100 * transit / total and
lies between 0 and 100. -/
theorem c6_pct_bounds (transit total : ℕ) (h1 : transit ≤ total) (h2 : total ≠ 0) :
    ∃ q : ℚ, transit_pct transit total = .val q ∧
      0 ≤ q ∧ q ≤ 100 ∧ q = 100 * ((transit : ℚ) / (total : ℚ)) := by
  have hT : (0 : ℚ) < (total : ℚ) := by
    exact_mod_cast Nat.pos_of_ne_zero h2
  refine ⟨100 * ((transit : ℚ) / (total : ℚ)), ?_, ?_, ?_, rfl⟩
  · simp [transit_pct, h2]
  · positivity
  · have hle : (transit : ℚ) / (total : ℚ) ≤ 1 :=
      (div_le_one hT).mpr (by exact_mod_cast h1)
    linarith

/-- Witness for C6 at the spec's example: 50 transit users out of 1000
commuters. -/
theorem c6_witness :
    ∃ q : ℚ, transit_pct 50 1000 = .val q ∧
      0 ≤ q ∧ q ≤ 100 ∧ q = 100 * (((50 : ℕ) : ℚ) / ((1000 : ℕ) : ℚ)) :=
  c6_pct_bounds 50 1000 (by decide) (by decide)

/-! ### Claim C4: what the two ingestion reads actually read -/

/-- C4 (divergence): both final reads force GEO_ID to dtype str as the
claim says, but the read that produces the 2010 table names the 2022
file, not a 2010 file of its own: the two tables are read from one and
the same input file. -/
theorem c4_ingestion_paths :
    acs22Read.geoIdAsString = true ∧
    acs10Read.geoIdAsString = true ∧
    acs10Read.path = acs22Read.path ∧
    acs10Read.path ≠ acs10IntendedPath := by
  refine ⟨rfl, rfl, rfl, ?_⟩
  decide

/-! ### Claim C10: the notnull filter -/

/-- C10: filtering the joined table by `notnull` on the percentage keeps
exactly the rows with non-NaN percentage, preserves their relative
order and changes no field (the kept rows form a sublist of the
original). -/
theorem c10_notnull_filter (t : List JoinedRow) :
    (notnullFilter t).Sublist t ∧
    ∀ r : JoinedRow, r ∈ notnullFilter t ↔ (r ∈ t ∧ r.pct.isNaN = false) := by
  constructor
  · exact List.filter_sublist t
  · intro r
    simp [notnullFilter, List.mem_filter]

/-- Witness for C10 at a concrete joined table. -/
theorem c10_witness :
    (notnullFilter sampleJoined).Sublist sampleJoined ∧
    ∀ r : JoinedRow, r ∈ notnullFilter sampleJoined ↔
      (r ∈ sampleJoined ∧ r.pct.isNaN = false) :=
  c10_notnull_filter sampleJoined

/-! ### Claim C3: the geometry join is inner and key-exact -/

/-- C3: every row surviving `tracts.merge(ACS_B, on="FIPS")`, where the
tracts frame's FIPS was synthesized as "06" + "037" + CT20, carries a
full identifier equal to that synthesis of its own short code, and both
a geometry row and a commuting row with exactly that key exist: no row
with a non-matching key survives on either side. -/
theorem c3_join_key_exact (geo : List GeoRow) (acs : List ACSRowB) :
    ∀ j ∈ mergeOnFips (mkTracts geo) acs,
      j.fips = "06" ++ "037" ++ j.ct20 ∧
      (∃ g ∈ geo, g.ct20 = j.ct20 ∧ g.geometry = j.geometry ∧
        "06" ++ "037" ++ g.ct20 = j.fips) ∧
      (∃ a ∈ acs, a.fips = j.fips ∧ a.transitUsers = j.transitUsers ∧
        a.totalCommuters = j.totalCommuters ∧ a.pct = j.pct) := by
  intro j hj
  obtain ⟨tr, htr, hj2⟩ := List.mem_flatMap.mp hj
  obtain ⟨a, ha2, rfl⟩ := List.mem_map.mp hj2
  obtain ⟨ha, hkey⟩ := List.mem_filter.mp ha2
  obtain ⟨g, hg, rfl⟩ := List.mem_map.mp htr
  have hkey' : a.fips = (addFips g).fips := by
    simpa using hkey
  exact ⟨rfl, ⟨g, hg, rfl, rfl, rfl⟩, ⟨a, ha, hkey', rfl, rfl, rfl⟩⟩

/-- Witness for C3 at the concrete joined row surviving a concrete
merge. -/
theorem c3_witness :
    sampleJoinedRow.fips = "06" ++ "037" ++ sampleJoinedRow.ct20 ∧
    (∃ g ∈ sampleGeo2, g.ct20 = sampleJoinedRow.ct20 ∧
      g.geometry = sampleJoinedRow.geometry ∧
      "06" ++ "037" ++ g.ct20 = sampleJoinedRow.fips) ∧
    (∃ a ∈ tieTable, a.fips = sampleJoinedRow.fips ∧
      a.transitUsers = sampleJoinedRow.transitUsers ∧
      a.totalCommuters = sampleJoinedRow.totalCommuters ∧
      a.pct = sampleJoinedRow.pct) :=
  c3_join_key_exact sampleGeo2 tieTable sampleJoinedRow (by decide)

/-! ### Claim C9: the 2010 branch reproduces the 2022 branch -/

/-- Line 354 computes `tracts2['FIPS']` from `tracts['CT20']`, but both
frames are row-aligned reads of the same geojson, so the two tracts
frames coincide. -/
theorem mkTracts2_eq_mkTracts (geo : List GeoRow) : mkTracts2 geo = mkTracts geo := by
  induction geo with
  | nil => rfl
  | cons g gs ih =>
      have ih' : (gs.zip gs).map
          (fun p => (⟨p.1.ct20, p.1.geometry, "06" ++ "037" ++ p.2.ct20⟩ : TractRow)) =
          gs.map addFips := ih
      simp only [mkTracts2, mkTracts, List.zip_cons_cons, List.map_cons]
      rw [ih']
      rfl

/-- C9: with deterministic reads (`fs` maps a csv path to its parsed
rows, `gs` a geojson path to its rows) the whole 2010-labelled branch
equals the 2022-labelled branch — the ingested tables, the reduced
ranked tables, the mean and median of the percentage column, the joined
tables and their notnull-filtered versions — because both branches read
the very same files and apply the same transformations. -/
theorem c9_year_branches_equal (fs : String → List ACSRow) (gs : String → List GeoRow) :
    acs10Table fs = acs22Table fs ∧
    acs10B fs = acs22B fs ∧
    pandasMean (pctCol10 fs) = pandasMean (pctCol22 fs) ∧
    pandasMedian (pctCol10 fs) = pandasMedian (pctCol22 fs) ∧
    pandasCount (pctCol10 fs) = pandasCount (pctCol22 fs) ∧
    tractsTransit10 fs gs = tractsTransit22 fs gs ∧
    tractsTransit10b fs gs = tractsTransit22b fs gs := by
  have hmerge : tractsTransit10 fs gs = tractsTransit22 fs gs := by
    unfold tractsTransit10 tractsTransit22
    rw [mkTracts2_eq_mkTracts]
    rfl
  refine ⟨rfl, rfl, rfl, rfl, rfl, hmerge, ?_⟩
  unfold tractsTransit10b tractsTransit22b
  rw [hmerge]

/-! ### Claim C8: missing expected columns fail explicitly -/

/-- C8 (counterexample to the claim as stated): on a frame missing the
two commuter-count columns, `ACS[columns_to_keep]` raises pandas'
KeyError naming the missing columns — it does not raise the
MalformedInputError the spec names (no such error exists in the
source or in pandas). -/
theorem c8_counterexample :
    selectColumns columns_to_keep malformedAcs =
      .error (.keyError ["B08301_010E", "B08301_001E"]) ∧
    selectColumns columns_to_keep malformedAcs ≠ .error .malformedInputError := by
  have h1 : selectColumns columns_to_keep malformedAcs =
      .error (.keyError ["B08301_010E", "B08301_001E"]) := rfl
  refine ⟨h1, ?_⟩
  rw [h1]
  simp

/-- C8 (amended): when some expected column is absent from the input
frame, the projection fails explicitly with a KeyError carrying a
non-empty list of missing columns — it never silently coerces. -/
theorem c8_missing_column_key_error (cols : List String) (t : RawTable)
    (h : ∃ c ∈ cols, c ∉ t.header) :
    ∃ missing : List String, missing ≠ [] ∧
      selectColumns cols t = .error (.keyError missing) := by
  refine ⟨cols.filter (fun c => !t.header.contains c), ?_, ?_⟩
  · obtain ⟨c, hc, hnc⟩ := h
    have hmem : c ∈ cols.filter (fun c => !t.header.contains c) := by
      refine List.mem_filter.mpr ⟨hc, ?_⟩
      simpa using hnc
    exact List.ne_nil_of_mem hmem
  · obtain ⟨c, hc, hnc⟩ := h
    have hmem : c ∈ cols.filter (fun c => !t.header.contains c) := by
      refine List.mem_filter.mpr ⟨hc, ?_⟩
      simpa using hnc
    have hne : (cols.filter (fun c => !t.header.contains c)).isEmpty = false := by
      rcases hx : cols.filter (fun c => !t.header.contains c) with _ | ⟨a, as⟩
      · rw [hx] at hmem
        cases hmem
      · simp [List.isEmpty]
    simp only [selectColumns]
    rw [hne]
    simp

/-- Witness for C8 (amended) at the concrete malformed frame. -/
theorem c8_witness :
    ∃ missing : List String, missing ≠ [] ∧
      selectColumns columns_to_keep malformedAcs = .error (.keyError missing) :=
  c8_missing_column_key_error columns_to_keep malformedAcs
    ⟨"B08301_010E", by decide, by decide⟩

/-! ### Claim C5: the summary statistics exclude undefined rows -/

/-- NaN rows are invisible to the value extraction, to the infinity
check and to the non-NaN count. -/
theorem replicate_nan_invisible (m : ℕ) :
    (List.replicate m PFloat.nan).filterMap PFloat.toVal = [] ∧
    (List.replicate m PFloat.nan).any PFloat.isInf = false ∧
    (List.replicate m PFloat.nan).countP (fun x => !x.isNaN) = 0 := by
  induction m with
  | zero => simp
  | succ k ih =>
      simp [List.replicate_succ, ih.1, ih.2.1, ih.2.2, PFloat.toVal, PFloat.isInf,
        PFloat.isNaN, List.countP_cons]

/-- C5: appending any number of undefined (NaN) rows to a percentage
column changes none of the statistics the script computes — count,
mean, median, sample variance (the square of describe's std), min, max
and any interpolated quantile all aggregate only the defined rows — and
on the spec's example column with values 2, 4, 6 and two NaNs the mean
and the median are both 4 while zero-filling the NaNs instead would
drag the mean to 12/5, which is not 4. -/
theorem c5_stats_exclude_nan :
    (∀ (xs : List PFloat) (m : ℕ),
      pandasCount (xs ++ List.replicate m .nan) = pandasCount xs ∧
      pandasMean (xs ++ List.replicate m .nan) = pandasMean xs ∧
      pandasMedian (xs ++ List.replicate m .nan) = pandasMedian xs ∧
      pandasVarSample (xs ++ List.replicate m .nan) = pandasVarSample xs ∧
      pandasMin (xs ++ List.replicate m .nan) = pandasMin xs ∧
      pandasMax (xs ++ List.replicate m .nan) = pandasMax xs ∧
      ∀ p : ℚ, pandasQuantile (xs ++ List.replicate m .nan) p = pandasQuantile xs p) ∧
    pandasMean [.val 2, .val 4, .val 6, .nan, .nan] = .val 4 ∧
    pandasMedian [.val 2, .val 4, .val 6, .nan, .nan] = .val 4 ∧
    pandasCount [.val 2, .val 4, .val 6, .nan, .nan] = 3 ∧
    pandasMean ([.val 2, .val 4, .val 6, .nan, .nan].map nanToZero) = .val (12 / 5) ∧
    (12 / 5 : ℚ) ≠ 4 := by
  have hdv : ∀ (xs : List PFloat) (m : ℕ),
      definedVals (xs ++ List.replicate m .nan) = definedVals xs := by
    intro xs m
    simp [definedVals, List.filterMap_append, (replicate_nan_invisible m).1]
  have hsv : ∀ (xs : List PFloat) (m : ℕ),
      sortedVals (xs ++ List.replicate m .nan) = sortedVals xs := by
    intro xs m
    simp [sortedVals, hdv]
  have hinf : ∀ (xs : List PFloat) (m : ℕ),
      hasInf (xs ++ List.replicate m .nan) = hasInf xs := by
    intro xs m
    simp [hasInf, List.any_append, (replicate_nan_invisible m).2.1]
  refine ⟨fun xs m => ⟨?_, ?_, ?_, ?_, ?_, ?_, ?_⟩, ?_, ?_, ?_, ?_, ?_⟩
  · simp [pandasCount, List.countP_append, (replicate_nan_invisible m).2.2]
  · simp [pandasMean, hdv, hinf]
  · simp [pandasMedian, hsv]
  · simp [pandasVarSample, hdv]
  · simp [pandasMin, hsv]
  · simp [pandasMax, hsv]
  · intro p
    simp [pandasQuantile, hsv]
  · norm_num [pandasMean, definedVals, hasInf, PFloat.toVal, PFloat.isInf, List.filterMap_cons]
    exact fun h => (List.cons_ne_nil _ _ h).elim
  · norm_num [pandasMedian, sortedVals, definedVals, PFloat.toVal, List.filterMap_cons,
      List.insertionSort, List.orderedInsert]
  · rfl
  · norm_num [pandasMean, nanToZero, definedVals, hasInf, PFloat.toVal, PFloat.isInf,
      List.filterMap_cons]
    exact fun h => (List.cons_ne_nil _ _ h).elim
  · norm_num

/-! ### Claim C2: the rank assignment -/

theorem rkF_pos (s : Finset ℚ) (a : ℚ) : 1 ≤ rkF s a :=
  Nat.le_add_left 1 _

theorem rkF_le_card {s : Finset ℚ} {a : ℚ} (ha : a ∈ s) : rkF s a ≤ s.card := by
  have hsub : s.filter (fun b => a < b) ⊆ s.erase a := by
    intro c hc
    obtain ⟨hcs, hac⟩ := Finset.mem_filter.mp hc
    exact Finset.mem_erase.mpr ⟨ne_of_gt hac, hcs⟩
  have h1 : (s.filter (fun b => a < b)).card ≤ (s.erase a).card :=
    Finset.card_le_card hsub
  have h2 : (s.erase a).card = s.card - 1 := Finset.card_erase_of_mem ha
  have h3 : 1 ≤ s.card := Finset.card_pos.mpr ⟨a, ha⟩
  unfold rkF
  omega

theorem rkF_lt_of_lt {s : Finset ℚ} {a b : ℚ} (hb : b ∈ s) (hab : a < b) :
    rkF s b < rkF s a := by
  have hsub : s.filter (fun c => b < c) ⊆ s.filter (fun c => a < c) := by
    intro c hc
    obtain ⟨h1, h2⟩ := Finset.mem_filter.mp hc
    exact Finset.mem_filter.mpr ⟨h1, lt_trans hab h2⟩
  have hbmem : b ∈ s.filter (fun c => a < c) := Finset.mem_filter.mpr ⟨hb, hab⟩
  have hbnot : b ∉ s.filter (fun c => b < c) := by simp
  have hlt : (s.filter (fun c => b < c)).card < (s.filter (fun c => a < c)).card :=
    Finset.card_lt_card ((Finset.ssubset_iff_of_subset hsub).mpr ⟨b, hbmem, hbnot⟩)
  unfold rkF
  omega

theorem rkF_injOn (s : Finset ℚ) : Set.InjOn (rkF s) s := by
  intro a ha b hb hab
  by_contra hne
  rcases lt_or_gt_of_ne hne with h | h
  · have := rkF_lt_of_lt hb h
    omega
  · have := rkF_lt_of_lt ha h
    omega

theorem rkF_image (s : Finset ℚ) : s.image (rkF s) = Finset.Icc 1 s.card := by
  apply Finset.eq_of_subset_of_card_le
  · intro k hk
    obtain ⟨a, ha, rfl⟩ := Finset.mem_image.mp hk
    exact Finset.mem_Icc.mpr ⟨rkF_pos s a, rkF_le_card ha⟩
  · rw [Finset.card_image_of_injOn (rkF_injOn s), Nat.card_Icc]
    omega

/-- Counting entries of a mixed column by a predicate on finite values:
with no infinities present and a predicate that rejects NaN, the count
over the column is the count over its defined values. -/
theorem countP_col_vals (q : PFloat → Bool) (p : ℚ → Bool)
    (hq_nan : q .nan = false) (hq_val : ∀ b, q (.val b) = p b) :
    ∀ col : List PFloat, (∀ x ∈ col, x.isInf = false) →
      col.countP q = (definedVals col).countP p := by
  intro col
  induction col with
  | nil => intro _; simp [definedVals]
  | cons x xs ih =>
      intro hne
      have hne' : ∀ y ∈ xs, y.isInf = false := fun y hy => hne y (List.mem_cons_of_mem _ hy)
      have ih' := ih hne'
      cases x with
      | nan =>
          simp [List.countP_cons, hq_nan, definedVals, List.filterMap_cons, PFloat.toVal, ih']
      | inf =>
          have : PFloat.inf.isInf = false := hne .inf (List.mem_cons_self _ _)
          simp [PFloat.isInf] at this
      | val b =>
          simp only [List.countP_cons, hq_val, definedVals, List.filterMap_cons, PFloat.toVal]
          simp only [definedVals] at ih'
          rw [ih']

/-- In a duplicate-free list every member is counted exactly once. -/
theorem countP_eq_one_of_nodup_mem {l : List ℚ} (hnd : l.Nodup) {a : ℚ} (ha : a ∈ l) :
    l.countP (fun b => decide (b = a)) = 1 := by
  induction l with
  | nil => cases ha
  | cons c cs ih =>
      rw [List.countP_cons]
      rcases List.mem_cons.mp ha with rfl | hmem
      · have hnotin : a ∉ cs := (List.nodup_cons.mp hnd).1
        have hz : cs.countP (fun b => decide (b = a)) = 0 := by
          apply List.countP_eq_zero.mpr
          intro b hb
          simp only [decide_eq_true_eq]
          exact fun he => hnotin (he ▸ hb)
        simp [hz]
      · have hrec := ih (List.nodup_cons.mp hnd).2 hmem
        have hca : ¬(c = a) := fun he => (List.nodup_cons.mp hnd).1 (he ▸ hmem)
        simp [hrec, hca]

/-- Counting a duplicate-free list by a decidable predicate is the
cardinality of the matching subset of its elements. -/
theorem countP_nodup_filter {l : List ℚ} (hnd : l.Nodup) (p : ℚ → Prop)
    [DecidablePred p] :
    l.countP (fun b => decide (p b)) = (l.toFinset.filter p).card := by
  rw [List.countP_eq_length_filter]
  rw [← List.toFinset_card_of_nodup (hnd.filter (fun b => decide (p b)))]
  congr 1
  rw [List.toFinset_filter]
  apply Finset.filter_congr
  intro x _
  simp

/-- With no infinities and pairwise-distinct defined values, the pandas
average rank of a defined entry is exactly one more than the number of
defined values strictly above it. -/
theorem rankVal_eq_rkF {col : List PFloat} (hne : ∀ x ∈ col, x.isInf = false)
    (hnd : (definedVals col).Nodup) {a : ℚ} (ha : a ∈ definedVals col) :
    rankVal col (.val a) = ((rkF (definedVals col).toFinset a : ℕ) : ℚ) := by
  have hgt : col.countP (fun y => y.gtB (.val a)) =
      (definedVals col).countP (fun b => decide (a < b)) :=
    countP_col_vals _ _ rfl (fun b => rfl) col hne
  have heqc : col.countP (fun y => decide (y = .val a)) = 1 := by
    rw [countP_col_vals (fun y => decide (y = .val a)) (fun b => decide (b = a))
      (by simp) (fun b => by simp) col hne]
    exact countP_eq_one_of_nodup_mem hnd ha
  rw [rankVal, hgt, heqc, countP_nodup_filter hnd (fun b => a < b)]
  rw [rkF]
  push_cast
  ring

/-- Defined membership bridge: the non-NaN entries of an infinity-free
column are exactly the values of its defined list. -/
theorem mem_definedVals_of_mem {col : List PFloat} (hne : ∀ x ∈ col, x.isInf = false)
    {x : PFloat} (hx : x ∈ col) (hxn : x.isNaN = false) :
    ∃ a : ℚ, x = .val a ∧ a ∈ definedVals col := by
  cases x with
  | nan => simp [PFloat.isNaN] at hxn
  | inf =>
      have := hne .inf hx
      simp [PFloat.isInf] at this
  | val a =>
      exact ⟨a, rfl, List.mem_filterMap.mpr ⟨.val a, hx, rfl⟩⟩

/-- Every defined value comes from a `val` entry of the column. -/
theorem mem_of_mem_definedVals {col : List PFloat} {a : ℚ}
    (ha : a ∈ definedVals col) : PFloat.val a ∈ col := by
  obtain ⟨x, hx, htv⟩ := List.mem_filterMap.mp ha
  cases x with
  | nan => simp [PFloat.toVal] at htv
  | inf => simp [PFloat.toVal] at htv
  | val b =>
      simp only [PFloat.toVal, Option.some.injEq] at htv
      exact htv ▸ hx

/-- C2 (amended): over an infinity-free column whose defined
(percentage) values are pairwise distinct, the rank assignment of lines
248/258 is a bijection from the defined entries onto the ranks 1..K
(K the number of defined entries), strictly descending — a strictly
larger percentage gets a strictly smaller rank — and NaN entries are
excluded (their rank is NaN). With tied values the pandas default
average method instead hands the tied entries one shared, possibly
non-integral mean rank (see the counterexample), which is neither a
dense ranking nor a bijection onto 1..K. -/
theorem c2_rank_bijection (col : List PFloat)
    (hne : ∀ x ∈ col, x.isInf = false)
    (hnd : (definedVals col).Nodup) :
    (∀ x ∈ col, x.isNaN = true → rank1 col x = none) ∧
    (∀ x ∈ col, x.isNaN = false →
      ∃ k ∈ Finset.Icc 1 (definedVals col).length, rank1 col x = some ((k : ℕ) : ℚ)) ∧
    (∀ a b : ℚ, PFloat.val a ∈ col → PFloat.val b ∈ col → b < a →
      rankVal col (.val a) < rankVal col (.val b)) ∧
    (∀ x ∈ col, ∀ y ∈ col, x.isNaN = false → y.isNaN = false →
      rank1 col x = rank1 col y → x = y) ∧
    (∀ k ∈ Finset.Icc 1 (definedVals col).length,
      ∃ x ∈ col, rank1 col x = some ((k : ℕ) : ℚ)) := by
  have hcard : (definedVals col).toFinset.card = (definedVals col).length :=
    List.toFinset_card_of_nodup hnd
  refine ⟨?_, ?_, ?_, ?_, ?_⟩
  · intro x _ hxn
    simp [rank1, hxn]
  · intro x hx hxn
    obtain ⟨a, rfl, ha⟩ := mem_definedVals_of_mem hne hx hxn
    refine ⟨rkF (definedVals col).toFinset a, ?_, ?_⟩
    · rw [Finset.mem_Icc, ← hcard]
      exact ⟨rkF_pos _ a, rkF_le_card (List.mem_toFinset.mpr ha)⟩
    · rw [rank1, if_neg (by simp [PFloat.isNaN]), rankVal_eq_rkF hne hnd ha]
  · intro a b hac hbc hba
    have ha : a ∈ definedVals col := List.mem_filterMap.mpr ⟨.val a, hac, rfl⟩
    have hb : b ∈ definedVals col := List.mem_filterMap.mpr ⟨.val b, hbc, rfl⟩
    rw [rankVal_eq_rkF hne hnd ha, rankVal_eq_rkF hne hnd hb]
    exact_mod_cast rkF_lt_of_lt (List.mem_toFinset.mpr ha) hba
  · intro x hx y hy hxn hyn hr
    obtain ⟨a, rfl, ha⟩ := mem_definedVals_of_mem hne hx hxn
    obtain ⟨b, rfl, hb⟩ := mem_definedVals_of_mem hne hy hyn
    simp only [rank1, PFloat.isNaN, if_neg, Bool.false_eq_true, not_false_eq_true,
      Option.some.injEq] at hr
    rw [rankVal_eq_rkF hne hnd ha, rankVal_eq_rkF hne hnd hb] at hr
    have hreq : rkF (definedVals col).toFinset a = rkF (definedVals col).toFinset b := by
      exact_mod_cast hr
    have hab : a = b :=
      rkF_injOn _ (List.mem_toFinset.mpr ha) (List.mem_toFinset.mpr hb) hreq
    rw [hab]
  · intro k hk
    rw [← hcard] at hk
    have himg : k ∈ (definedVals col).toFinset.image (rkF (definedVals col).toFinset) := by
      rw [rkF_image]
      exact hk
    obtain ⟨a, haf, hra⟩ := Finset.mem_image.mp himg
    have ha : a ∈ definedVals col := List.mem_toFinset.mp haf
    refine ⟨.val a, mem_of_mem_definedVals ha, ?_⟩
    rw [rank1, if_neg (by simp [PFloat.isNaN]), rankVal_eq_rkF hne hnd ha, hra]

/-- C2 (counterexample to the claim as stated): on a reduced table with
two rows tied at the same defined percentage (K = 2 defined rows), the
script's rank column is [1.5, 1.5]: the assignment is not a bijection
onto the ranks 1..2 (and not a dense ranking — 1.5 is not even an
integer), refuting the claim for this table. -/
theorem c2_counterexample :
    (rankTable tieTable).map RankedRow.rank = [some ((3 : ℚ) / 2), some ((3 : ℚ) / 2)] ∧
    (definedVals (tieTable.map ACSRowB.pct)).length = 2 ∧
    ∀ k ∈ Finset.Icc 1 2, ((3 : ℚ) / 2) ≠ ((k : ℕ) : ℚ) := by
  refine ⟨?_, ?_, ?_⟩
  · norm_num [rankTable, rank1, rankVal, tieTable, PFloat.isNaN, PFloat.gtB,
      List.countP_cons]
  · rfl
  · intro k hk
    obtain ⟨h1, h2⟩ := Finset.mem_Icc.mp hk
    interval_cases k <;> norm_num

/-- Witness for C2 (amended) at a concrete column with distinct defined
values 6, 2, 4 and one NaN. -/
theorem c2_witness :
    (∀ x ∈ sampleCol, x.isNaN = true → rank1 sampleCol x = none) ∧
    (∀ x ∈ sampleCol, x.isNaN = false →
      ∃ k ∈ Finset.Icc 1 (definedVals sampleCol).length,
        rank1 sampleCol x = some ((k : ℕ) : ℚ)) ∧
    (∀ a b : ℚ, PFloat.val a ∈ sampleCol → PFloat.val b ∈ sampleCol → b < a →
      rankVal sampleCol (.val a) < rankVal sampleCol (.val b)) ∧
    (∀ x ∈ sampleCol, ∀ y ∈ sampleCol, x.isNaN = false → y.isNaN = false →
      rank1 sampleCol x = rank1 sampleCol y → x = y) ∧
    (∀ k ∈ Finset.Icc 1 (definedVals sampleCol).length,
      ∃ x ∈ sampleCol, rank1 sampleCol x = some ((k : ℕ) : ℚ)) :=
  c2_rank_bijection sampleCol (by decide) (by decide)

/-! ### Claim C7: the tables are ordered by ascending rank, NaN last -/

theorem rkey_eq_top_iff (r : RankedRow) : rkey r = ⊤ ↔ r.rank = none := by
  cases hr : r.rank with
  | none => simp [rkey, hr]
  | some x => simp [rkey, hr]

/-- C7: after ranking, indexing and sorting (lines 248-251/258-261, the
same composite applied to both survey-year tables), the table is sorted
ascending by rank; every NaN-ranked (undefined-percentage) row comes
after every ranked row; and a row holding rank 1 — when one exists —
has a percentage at least as large as every defined percentage in the
table. -/
theorem c7_sorted_by_rank (t : List ACSRowB) :
    List.Sorted rowLE (rankAndSort t) ∧
    (∀ i j : Fin (rankAndSort t).length, i < j →
      ((rankAndSort t).get i).rank = none → ((rankAndSort t).get j).rank = none) ∧
    (∀ r ∈ rankAndSort t, r.rank = some 1 →
      ∀ r2 ∈ rankAndSort t, ∀ a b : ℚ,
        r.row.pct = .val a → r2.row.pct = .val b → b ≤ a) := by
  have hsorted : List.Sorted rowLE (rankAndSort t) :=
    List.sorted_insertionSort rowLE (rankTable t)
  refine ⟨hsorted, ?_, ?_⟩
  · intro i j hij hnone
    have hle : rowLE ((rankAndSort t).get i) ((rankAndSort t).get j) :=
      hsorted.rel_get_of_lt hij
    have htop : rkey ((rankAndSort t).get i) = ⊤ := (rkey_eq_top_iff _).mpr hnone
    rw [rowLE, htop] at hle
    exact (rkey_eq_top_iff _).mp (top_le_iff.mp hle)
  · intro r hr hr1 r2 hr2 a b hpa hpb
    have hperm := List.perm_insertionSort rowLE (rankTable t)
    have hmem : r ∈ rankTable t := hperm.mem_iff.mp hr
    have hmem2 : r2 ∈ rankTable t := hperm.mem_iff.mp hr2
    obtain ⟨p, hp, hpr⟩ := List.mem_map.mp hmem
    obtain ⟨p2, hp2, hpr2⟩ := List.mem_map.mp hmem2
    have hra : rank1 (t.map ACSRowB.pct) (.val a) = some 1 := by
      have : r.rank = rank1 (t.map ACSRowB.pct) r.row.pct := by
        rw [← hpr]
      rw [hr1, hpa] at this
      exact this.symm
    have hrv : rankVal (t.map ACSRowB.pct) (.val a) = 1 := by
      have : (if (PFloat.val a).isNaN then none
          else some (rankVal (t.map ACSRowB.pct) (.val a))) = some 1 := hra
      rw [if_neg (by simp [PFloat.isNaN])] at this
      exact Option.some_inj.mp this
    have hcola : PFloat.val a ∈ t.map ACSRowB.pct := by
      rw [← hpa, ← hpr]
      exact List.mem_map_of_mem _ hp
    have hcolb : PFloat.val b ∈ t.map ACSRowB.pct := by
      have : r2.row.pct ∈ t.map ACSRowB.pct := by
        rw [← hpr2]
        exact List.mem_map_of_mem _ hp2
      rw [hpb] at this
      exact this
    have he : 0 < (t.map ACSRowB.pct).countP (fun y => decide (y = .val a)) :=
      List.countP_pos_iff.mpr ⟨.val a, hcola, by simp⟩
    have hg : (t.map ACSRowB.pct).countP (fun y => y.gtB (.val a)) = 0 := by
      have heq : ((t.map ACSRowB.pct).countP (fun y => y.gtB (.val a)) : ℚ) +
          (((t.map ACSRowB.pct).countP (fun y => decide (y = .val a)) : ℚ) + 1) / 2 = 1 :=
        hrv
      have hge : (1 : ℚ) ≤
          ((t.map ACSRowB.pct).countP (fun y => decide (y = .val a)) : ℚ) := by
        exact_mod_cast he
      have hgnn : (0 : ℚ) ≤
          ((t.map ACSRowB.pct).countP (fun y => y.gtB (.val a)) : ℚ) :=
        Nat.cast_nonneg _
      have hle0 : ((t.map ACSRowB.pct).countP (fun y => y.gtB (.val a)) : ℚ) ≤ 0 := by
        linarith
      exact_mod_cast le_antisymm hle0 hgnn
    have hnogt := List.countP_eq_zero.mp hg (.val b) hcolb
    simp only [PFloat.gtB, decide_eq_true_eq] at hnogt
    exact not_lt.mp hnogt

/-- Witness for C7 at the concrete two-row survey table. -/
theorem c7_witness :
    List.Sorted rowLE (rankAndSort sampleB) ∧
    (∀ i j : Fin (rankAndSort sampleB).length, i < j →
      ((rankAndSort sampleB).get i).rank = none →
      ((rankAndSort sampleB).get j).rank = none) ∧
    (∀ r ∈ rankAndSort sampleB, r.rank = some 1 →
      ∀ r2 ∈ rankAndSort sampleB, ∀ a b : ℚ,
        r.row.pct = .val a → r2.row.pct = .val b → b ≤ a) :=
  c7_sorted_by_rank sampleB
